import Mathlib

/-!
Verification development for the script-analysis pipeline in `subir_gh.py`.

The Python module defines a class `ScriptAnalyzer` whose methods are shallowly
embedded here as pure Lean functions:

* JSON values produced by `json.loads` are modelled by the inductive `JValue`
  (numbers as `Int`; the claims under study never depend on float values).
* The external generative service (`model.generate_content(...).text`), the
  standard-library JSON parser (`json.loads`) and serializer (`json.dumps`)
  are external collaborators; they are modelled as an explicit environment
  `LLMEnv` of functions, with exceptions as `Except.error`.
* Python code that can raise is embedded in `Except String`; code that cannot
  raise is embedded as a total function.
* The two regular-expression shapes used by the source
  (`re.findall` for connection extraction, `re.search` for fenced blocks)
  are implemented directly over `List Char`, with Python's leftmost,
  lazy-gap, non-overlapping semantics, by structural recursion so that
  concrete runs reduce definitionally.
* Python `dict`s built by insertion are modelled as association lists that
  preserve insertion order, matching CPython's ordered-dict semantics.
-/

namespace SubirGh

/-- JSON values as returned by `json.loads`.  Numbers are modelled as `Int`
(the claims never inspect numeric values, and no float arithmetic occurs in
the source). -/
inductive JValue where
  | null : JValue
  | bool (b : Bool) : JValue
  | num (n : Int) : JValue
  | str (s : String) : JValue
  | arr (elems : List JValue) : JValue
  | obj (fields : List (String × JValue)) : JValue

/-- The hashable Python values that can actually become `dict` keys in
`find_combinations` (lists and dicts raise `TypeError` there). -/
inductive PyKey where
  | null : PyKey
  | bool (b : Bool) : PyKey
  | num (n : Int) : PyKey
  | str (s : String) : PyKey
deriving DecidableEq

/-- Conversion of a JSON value to a Python dict key; `none` models the
`TypeError` raised for unhashable values (lists and dicts). -/
def toPyKey : JValue → Option PyKey
  | .null => some .null
  | .bool b => some (.bool b)
  | .num n => some (.num n)
  | .str s => some (.str s)
  | .arr _ => none
  | .obj _ => none

/-- Python truthiness (`if table:`) of a JSON-loaded value. -/
def pyTruthy : JValue → Bool
  | .null => false
  | .bool b => b
  | .num n => n != 0
  | .str s => !s.isEmpty
  | .arr xs => !xs.isEmpty
  | .obj kvs => !kvs.isEmpty

/-- Python `str()` of a dict key, as used by the f-strings of the source. -/
def pyStr : PyKey → String
  | .null => "None"
  | .bool true => "True"
  | .bool false => "False"
  | .num n => toString n
  | .str s => s

/-- First binding of a key in a JSON object (CPython dicts hold each key
once, so this is plain dict lookup). -/
def lookupJ (key : String) : List (String × JValue) → Option JValue
  | [] => none
  | (k, v) :: rest => if k = key then some v else lookupJ key rest

/-- Python `value.get(key, default)`: defined on dicts, raises
`AttributeError` on every other JSON value. -/
def jgetD (v : JValue) (key : String) (dflt : JValue) : Except String JValue :=
  match v with
  | .obj kvs => .ok (match lookupJ key kvs with
      | some x => x
      | none => dflt)
  | _ => .error "AttributeError"

/-- Python iteration (`for x in v`) over a JSON-loaded value: lists yield
their elements, dicts their keys, strings their one-character substrings;
all other values raise `TypeError`. -/
def jiter : JValue → Except String (List JValue)
  | .arr xs => .ok xs
  | .obj kvs => .ok (kvs.map (fun kv => JValue.str kv.1))
  | .str s => .ok (s.data.map (fun c => JValue.str (String.singleton c)))
  | _ => .error "TypeError: not iterable"

/-- The neutral fallback dict returned by `analyze_with_llm` on any
exception: exactly the three keys, each mapped to an empty list. -/
def emptyResult : JValue :=
  .obj [("inputs", .arr []), ("outputs", .arr []), ("combinable_with", .arr [])]

/-! ### Character-level regular-expression machinery

The source uses exactly two regex shapes.  Both are implemented here by
structural recursion over `List Char` so that the kernel can evaluate them
on concrete inputs. -/

/-- Python `\s` on the ASCII range. -/
def isPySpace (c : Char) : Bool :=
  c == ' ' || c == '\t' || c == '\n' || c == '\r' || c == '\x0B' || c == '\x0C'

/-- Membership in the regex character class matching a single or double
quote. -/
def isQuote (c : Char) : Bool :=
  c == '\x27' || c == '"'

/-- If `pat` is a literal prefix of `s`, return the remainder of `s`. -/
def dropPfx : List Char → List Char → Option (List Char)
  | [], s => some s
  | _ :: _, [] => none
  | p :: ps, c :: cs => if p = c then dropPfx ps cs else none

/-- First occurrence of the literal `pat` inside `s`: returns the characters
before the occurrence and the remainder after it. -/
def findSub (pat : List Char) : List Char → Option (List Char × List Char)
  | [] =>
    match dropPfx pat [] with
    | some rest => some ([], rest)
    | none => none
  | c :: cs =>
    match dropPfx pat (c :: cs) with
    | some rest => some ([], rest)
    | none =>
      match findSub pat cs with
      | some (pre, post) => some ((c :: pre : List Char), post)
      | none => none

/-- `re.search` for the pattern `op(.*?)cl` with `re.DOTALL` (the fenced-block
patterns of the source): leftmost start wins and the lazy capture ends at the
first later occurrence of `cl`; if a start has no closing occurrence the scan
resumes one character later, as the backtracking engine does. -/
def fencedSearch (op cl : List Char) : List Char → Option (List Char)
  | [] => none
  | c :: cs =>
    match dropPfx op (c :: cs) with
    | some rest =>
      match findSub cl rest with
      | some (cap, _) => some cap
      | none => fencedSearch op cl cs
    | none => fencedSearch op cl cs

/-- The tail of the connection patterns after the lazy gap:
`database\s*=\s*['"]([^'"]+)` — both `\s*` runs are deterministic because the
following literal is not whitespace, and the final greedy one-or-more capture
of non-quote characters ends the pattern.  Returns the capture and the
remainder of the text after the whole match. -/
def connTail (s : List Char) : Option (List Char × List Char) :=
  match dropPfx ("database".data) s with
  | none => none
  | some r1 =>
    match r1.dropWhile isPySpace with
    | '=' :: r3 =>
      match r3.dropWhile isPySpace with
      | q :: r5 =>
        if isQuote q then
          let cap := r5.takeWhile (fun c => !(isQuote c))
          if cap.isEmpty then none
          else some (cap, r5.dropWhile (fun c => !(isQuote c)))
        else none
      | [] => none
    | _ => none

/-- The lazy gap `.*?` (no DOTALL, so it cannot cross a newline) followed by
`connTail`: the shortest gap that lets the tail match wins; a newline in the
gap kills every longer gap at this start position. -/
def gapScan : List Char → Option (List Char × List Char)
  | [] => none
  | c :: cs =>
    match connTail (c :: cs) with
    | some r => some r
    | none => if c == '\n' then none else gapScan cs

/-- Attempt of the full connection pattern at the current position:
the literal prefix (`psycopg2.connect` or `mysql.connector.connect`),
then the lazy gap and tail. -/
def connMatchAt (p : List Char) (s : List Char) : Option (List Char × List Char) :=
  match dropPfx p s with
  | none => none
  | some rest => gapScan rest

/-- Attempt of the mongodb pattern `get_collection\(['"]([^'"]+)['"]\)` at the
current position. -/
def mongoMatchAt (s : List Char) : Option (List Char × List Char) :=
  match dropPfx ("get_collection(".data) s with
  | none => none
  | some r1 =>
    match r1 with
    | q :: r2 =>
      if isQuote q then
        let cap := r2.takeWhile (fun c => !(isQuote c))
        match r2.dropWhile (fun c => !(isQuote c)) with
        | q2 :: r3 =>
          if isQuote q2 then
            match r3 with
            | ')' :: r4 => if cap.isEmpty then none else some (cap, r4)
            | _ => none
          else none
        | [] => none
      else none
    | [] => none

/-- `re.findall` driver: leftmost non-overlapping matches, resuming right
after each match.  The `skip` counter carries how many characters of the
already-matched region remain to be stepped over, keeping the recursion
structural in the text. -/
def scanAll (m : List Char → Option (List Char × List Char)) :
    List Char → Nat → List String
  | [], _ => []
  | _ :: cs, skip + 1 => scanAll m cs skip
  | c :: cs, 0 =>
    match m (c :: cs) with
    | some (cap, rem) =>
      String.mk cap :: scanAll m cs ((c :: cs).length - rem.length - 1)
    | none => scanAll m cs 0

/-- `re.findall` for the connection patterns with literal prefix `p`. -/
def findallConn (p : String) (code : String) : List String :=
  scanAll (connMatchAt p.data) code.data 0

/-- `re.findall` for the mongodb pattern. -/
def findallMongo (code : String) : List String :=
  scanAll mongoMatchAt code.data 0

/-- `re.search(r"```json\n(.*?)\n```", text, re.DOTALL)`, returning the
first capture group. -/
def fencedJson (text : String) : Option String :=
  (fencedSearch ("```json\n".data) ("\n```".data) text.data).map String.mk

/-- `re.search(r"```sql\n(.*?)\n```", text, re.DOTALL)`, returning the first
capture group. -/
def fencedSql (text : String) : Option String :=
  (fencedSearch ("```sql\n".data) ("\n```".data) text.data).map String.mk

/-! ### Data model and pipeline -/

/-- The dataclass `ScriptData`.  The three model-inferred fields hold whatever
JSON value ended up assigned to them (Python does not check the annotated
types); the dataclass defaults of `None` are modelled by `JValue.null`. -/
structure ScriptData where
  name : String
  path : String
  code : String
  connections : List (String × List String)
  inputs : JValue := .null
  outputs : JValue := .null
  combinable_with : JValue := .null

/-- The external collaborators of the analyzer, as one environment:
`generate` models `self.model.generate_content(prompt).text` (a response text
or a raised exception), `jsonLoads` models `json.loads` (a parsed value or a
raised exception), and `dumps` models `json.dumps(..., indent=2)`. -/
structure LLMEnv where
  generate : String → Except String String
  jsonLoads : String → Except String JValue
  dumps : JValue → String

/-- `ScriptAnalyzer.extract_connections`: the dict comprehension running
`re.findall` for each of the three hardcoded dialect patterns, in the
source's key order. -/
def extract_connections (code : String) : List (String × List String) :=
  [("postgres", findallConn "psycopg2.connect" code),
   ("mysql", findallConn "mysql.connector.connect" code),
   ("mongodb", findallMongo code)]

/-- The f-string prompt of `analyze_with_llm`, with the script body truncated
to its first 3000 characters. -/
def llmPrompt (script : ScriptData) : String :=
  "\n        Extraia inputs/outputs deste script Python:\n        \n        ```python\n        "
    ++ String.mk (script.code.data.take 3000)
    ++ "\n        ```\n        \n        Retorne JSON:\n        \x7b\n            \"inputs\": [\x7b\"source\": \"tabela\", \"columns\": [\"col1\"]\x7d, ...],\n            \"outputs\": [\x7b\"destination\": \"tabela\", \"operation\": \"INSERT/UPDATE\"\x7d, ...],\n            \"combinable_with\": [\"tabela1\", \"tabela2\"]\n        \x7d\n        "

/-- `json_match.group(1) if json_match else response.text`: the text handed to
`json.loads`. -/
def payloadOf (text : String) : String :=
  match fencedJson text with
  | some cap => cap
  | none => text

/-- `ScriptAnalyzer.analyze_with_llm`: one service round trip, fenced-block
extraction, JSON parse; the bare `except:` catches every exception from the
call or the parse (the `re.search` itself cannot raise on a string) and
returns the neutral empty dict. -/
def analyze_with_llm (env : LLMEnv) (script : ScriptData) : JValue :=
  match env.generate (llmPrompt script) with
  | .error _ => emptyResult
  | .ok text =>
    match env.jsonLoads (payloadOf text) with
    | .error _ => emptyResult
    | .ok v => v

/-- The `ScriptData(...)` constructed by `analyze_script` before the model
call: name is `os.path.basename(path)` (applied by the caller here),
connections come from `extract_connections`, the inferred fields keep their
`None` defaults. -/
def initialScript (name path code : String) : ScriptData :=
  { name := name, path := path, code := code,
    connections := extract_connections code }

/-- The three `llm_result.get(..., [])` reads of `analyze_script` and the
final record: each `.get` raises `AttributeError` when `llm_result` is not a
dict. -/
def buildRecord (script : ScriptData) (llm_result : JValue) : Except String ScriptData :=
  match jgetD llm_result "inputs" (.arr []) with
  | .error m => .error m
  | .ok i =>
    match jgetD llm_result "outputs" (.arr []) with
    | .error m => .error m
    | .ok o =>
      match jgetD llm_result "combinable_with" (.arr []) with
      | .error m => .error m
      | .ok cw => .ok { script with inputs := i, outputs := o, combinable_with := cw }

/-- `ScriptAnalyzer.analyze_script` on a path whose decoded content is
`code`: build the record, run the semantic extractor, read the three fields
with default-empty fallbacks.  The `.get` calls sit outside any
`try`/`except`, so their `AttributeError` propagates. -/
def analyze_script (env : LLMEnv) (name path code : String) : Except String ScriptData :=
  buildRecord (initialScript name path code)
    (analyze_with_llm env (initialScript name path code))

/-- The insertion-ordered `table_groups` dict: key → list of script names. -/
abbrev Groups := List (PyKey × List String)

/-- `table_groups[table].append(script.name)` preceded by
`if table not in table_groups: table_groups[table] = []`: append to the
existing key's list, else add the new key at the end (CPython dicts preserve
insertion order). -/
def insertName : Groups → PyKey → String → Groups
  | [], t, nm => [(t, [nm])]
  | (k, ns) :: rest, t, nm =>
    if k = t then (k, ns ++ [nm]) :: rest
    else (k, ns) :: insertName rest t nm

/-- The body of the inner loop of `find_combinations` for one output entry:
`table = output.get('destination', '')`, the truthiness test, and the dict
insertion (which raises `TypeError` for an unhashable key). -/
def outputsStep (nm : String) (g : Groups) (e : JValue) : Except String Groups :=
  match jgetD e "destination" (.str "") with
  | .error m => .error m
  | .ok t =>
    if pyTruthy t then
      match toPyKey t with
      | some k => .ok (insertName g k nm)
      | none => .error "TypeError: unhashable type"
    else .ok g

/-- `for output in script.outputs:` over an already-extracted entry list. -/
def addOutputs (nm : String) (g : Groups) : List JValue → Except String Groups
  | [] => .ok g
  | e :: es =>
    match outputsStep nm g e with
    | .error m => .error m
    | .ok g2 => addOutputs nm g2 es

/-- One iteration of the outer loop of `find_combinations`: iterate the
record's `outputs` value (raising `TypeError` when it is not iterable) and
fold the entries. -/
def addRecord (g : Groups) (r : ScriptData) : Except String Groups :=
  match jiter r.outputs with
  | .error m => .error m
  | .ok es => addOutputs r.name g es

/-- The full grouping loop of `find_combinations`. -/
def buildGroups (g : Groups) : List ScriptData → Except String Groups
  | [] => .ok g
  | r :: rs =>
    match addRecord g r with
    | .error m => .error m
    | .ok g2 => buildGroups g2 rs

/-- One `{"table": ..., "scripts": ...}` dict of the result list. -/
structure Combo where
  table : PyKey
  scripts : List String
deriving DecidableEq

/-- `ScriptAnalyzer.find_combinations` over a given record collection
(`self.scripts`): group the records by declared output destination, then
keep the groups with more than one contributing name. -/
def find_combinations (scripts : List ScriptData) : Except String (List Combo) :=
  match buildGroups [] scripts with
  | .error m => .error m
  | .ok gs =>
    .ok (gs.filterMap (fun g =>
      if 1 < g.2.length then some (Combo.mk g.1 g.2) else none))

/-- The f-string prompt of `generate_unified_sql`, embedding the
`json.dumps` projection of the member scripts. -/
def sqlPrompt (env : LLMEnv) (combination : Combo) (scripts_data : List ScriptData) : String :=
  "\n        Gere SQL unificado para combinar estes scripts que alteram a tabela "
    ++ pyStr combination.table
    ++ ":\n        \n        "
    ++ env.dumps (.arr (scripts_data.map (fun s =>
        .obj [("name", .str s.name), ("inputs", s.inputs), ("outputs", s.outputs)])))
    ++ "\n        \n        Retorne apenas o SQL:\n        ```sql\n        -- SQL aqui\n        ```\n        "

/-- `ScriptAnalyzer.generate_unified_sql`: select the member records, one
service call, fenced-SQL extraction with raw-text fallback; the bare
`except:` turns any exception of the call into the deterministic placeholder
naming the table. -/
def generate_unified_sql (env : LLMEnv) (allScripts : List ScriptData)
    (combination : Combo) : String :=
  match env.generate (sqlPrompt env combination
      (allScripts.filter (fun s => combination.scripts.contains s.name))) with
  | .error _ => "-- Erro ao gerar SQL para " ++ pyStr combination.table
  | .ok text =>
    match fencedSql text with
    | some cap => cap
    | none => text

/-- Characters of the last slash-separated segment of a path, accumulating
the current segment in reverse. -/
def basenameChars (acc : List Char) : List Char → List Char
  | [] => acc.reverse
  | '/' :: cs => basenameChars [] cs
  | c :: cs => basenameChars (c :: acc) cs

/-- `os.path.basename` on the slash-separated paths produced by
`os.path.join`: everything after the last slash. -/
def basename (p : String) : String :=
  String.mk (basenameChars [] p.data)

/-- The per-file loop of `run_analysis` over the discovered files, given as
(path, decoded content) pairs; an uncaught exception of `analyze_script`
aborts the run. -/
def analyzeAll (env : LLMEnv) : List (String × String) → Except String (List ScriptData)
  | [] => .ok []
  | (path, code) :: rest =>
    match analyze_script env (basename path) path code with
    | .error m => .error m
    | .ok s =>
      match analyzeAll env rest with
      | .error m => .error m
      | .ok ss => .ok (s :: ss)

/-- The `results` dict assembled by `run_analysis`:  `unified_sql` is an
insertion-ordered dict keyed by combination table (the grouping keys are
pairwise distinct, so plain appending models it). -/
structure Report where
  scripts : Nat
  combinations : List Combo
  unified_sql : List (PyKey × String)

/-- `ScriptAnalyzer.run_analysis` over the discovered (path, content) pairs:
analyze every file in order, find the combinations once, then synthesize one
SQL text per combination. -/
def run_analysis (env : LLMEnv) (files : List (String × String)) : Except String Report :=
  match analyzeAll env files with
  | .error m => .error m
  | .ok scripts =>
    match find_combinations scripts with
    | .error m => .error m
    | .ok combinations =>
      .ok { scripts := scripts.length,
            combinations := combinations,
            unified_sql := combinations.map (fun combo =>
              (combo.table, generate_unified_sql env scripts combo)) }

/-! ### Concrete fixtures

Environments and records used to instantiate the theorems below on explicit
inputs.  Every environment is a legitimate behaviour of the external
collaborators: `generate` either raises or returns a fixed text, and
`jsonLoads` parses exactly the texts whose parse is being exercised (its
value on those texts agrees with `json.loads`). -/

/-- A service whose every call raises (simulated network failure); the
parser also rejects everything. -/
def envFailing : LLMEnv :=
  { generate := fun _ => .error "network unreachable",
    jsonLoads := fun _ => .error "json",
    dumps := fun _ => "[]" }

/-- A script record as built before the model call, for an empty file. -/
def demoScript : ScriptData := initialScript "s.py" "s.py" ""

/-- A service that answers every prompt with the text `[]`, which
`json.loads` parses as an (empty) JSON array. -/
def envArr : LLMEnv :=
  { generate := fun _ => .ok "[]",
    jsonLoads := fun t => if t = "[]" then .ok (.arr []) else .error "json",
    dumps := fun _ => "[]" }

/-- Record `script1`, declaring table `A` as its output destination. -/
def rec1 : ScriptData :=
  { name := "script1", path := "script1", code := "",
    connections := extract_connections "", inputs := .arr [],
    outputs := .arr [.obj [("destination", .str "A")]],
    combinable_with := .arr [] }

/-- Record `script2`, also declaring table `A`. -/
def rec2 : ScriptData := { rec1 with name := "script2", path := "script2" }

/-- Record `script1` again, this time declaring table `B`. -/
def rec3 : ScriptData :=
  { rec1 with outputs := .arr [.obj [("destination", .str "B")]] }

/-- A single record whose output list declares the same destination `A` in
two of its entries. -/
def rec7 : ScriptData :=
  { rec1 with
    outputs := .arr [.obj [("destination", .str "A")],
                     .obj [("destination", .str "A")]] }

/-- `rec1` with a different `combinable_with` field and everything else
unchanged. -/
def rec1cw : ScriptData := { rec1 with combinable_with := .arr [.str "B"] }

/-- The text of an empty JSON object. -/
def emptyObjText : String := "\x7b\x7d"

/-- A service that answers every prompt with the empty-object text, which
the parser maps to the empty JSON object. -/
def envEmptyObj : LLMEnv :=
  { generate := fun _ => .ok emptyObjText,
    jsonLoads := fun t => if t = emptyObjText then .ok (.obj []) else .error "json",
    dumps := fun _ => "[]" }

/-- A fixed JSON-object response text declaring one output to table
`customers`. -/
def customersText : String :=
  "\x7b\"outputs\": [\x7b\"destination\": \"customers\"\x7d]\x7d"

/-- A service that answers every prompt with `customersText`; the parser
maps that text to the corresponding JSON object. -/
def envCustomers : LLMEnv :=
  { generate := fun _ => .ok customersText,
    jsonLoads := fun t =>
      if t = customersText then
        .ok (.obj [("outputs", .arr [.obj [("destination", .str "customers")]])])
      else .error "json",
    dumps := fun _ => "[]" }

/-- The two discovered files of the end-to-end scenario. -/
def demoFiles : List (String × String) := [("a.py", ""), ("b.py", "")]

/-! ### Claim theorems -/

/-- C1: for every script record and every behaviour of the external
generation service, `analyze_with_llm` never raises (it is a total function
in this embedding, mirroring the bare `except:`), and whenever the service
call raises, or the JSON parse of the extracted payload (the fenced `json`
block if present, else the whole response text) raises, the result is
exactly the mapping with `inputs`, `outputs` and `combinable_with` each
bound to the empty list. -/
theorem analyze_with_llm_fallback (env : LLMEnv) (script : ScriptData) :
    (∀ e, env.generate (llmPrompt script) = .error e →
      analyze_with_llm env script = emptyResult) ∧
    (∀ text e, env.generate (llmPrompt script) = .ok text →
      env.jsonLoads (payloadOf text) = .error e →
      analyze_with_llm env script = emptyResult) := by
  constructor
  · intro e he
    unfold analyze_with_llm
    rw [he]
  · intro text e ht hp
    unfold analyze_with_llm
    rw [ht]
    show (match env.jsonLoads (payloadOf text) with
      | .error _ => emptyResult
      | .ok v => v) = emptyResult
    rw [hp]

/-- C1 witness: a concrete always-raising service yields exactly the empty
result on a concrete script. -/
theorem analyze_with_llm_fallback_witness :
    analyze_with_llm envFailing demoScript = emptyResult :=
  (analyze_with_llm_fallback envFailing demoScript).1 "network unreachable" rfl

/-- C2 counterexample: a service response of `[]` is well-formed JSON whose
parse succeeds with a JSON array, so `analyze_with_llm` returns that array
and the unguarded `llm_result.get('inputs', [])` of `analyze_script` raises
`AttributeError`; `analyze_script` does not always produce a record. -/
theorem analyze_script_raises_on_array :
    analyze_script envArr "a.py" "a.py" "" = .error "AttributeError" ∧
    ¬ ∃ s, analyze_script envArr "a.py" "a.py" "" = .ok s := by
  refine ⟨rfl, ?_⟩
  rintro ⟨s, hs⟩
  rw [show analyze_script envArr "a.py" "a.py" "" = .error "AttributeError" from rfl] at hs
  exact Except.noConfusion hs

/-- C2 (amended): for every file content and every service behaviour whose
semantic-extraction result is a JSON object — which covers every failure,
since the fallback is itself an object, and every object-shaped success,
keys present or not — `analyze_script` raises nothing and produces a
record.  (The unamended claim fails for responses parsing to a JSON array
or string.) -/
theorem analyze_script_ok_of_obj (env : LLMEnv) (name path code : String)
    (kvs : List (String × JValue))
    (h : analyze_with_llm env (initialScript name path code) = .obj kvs) :
    ∃ s, analyze_script env name path code = .ok s := by
  unfold analyze_script
  rw [h]
  exact ⟨_, rfl⟩

/-- C2 witness: with an always-raising service the extractor falls back to
the empty object and `analyze_script` produces a record. -/
theorem analyze_script_ok_of_obj_witness :
    ∃ s, analyze_script envFailing "a.py" "a.py" "" = .ok s :=
  analyze_script_ok_of_obj envFailing "a.py" "a.py" ""
    [("inputs", .arr []), ("outputs", .arr []), ("combinable_with", .arr [])] rfl

/-- C3: on three records whose outputs declare destinations
`A` (by `script1`), `A` (by `script2`) and `B` (by `script1`),
`find_combinations` returns exactly one candidate, for table `A`, with
members `[script1, script2]` in that order, and none for table `B`. -/
theorem find_combinations_example :
    find_combinations [rec1, rec2, rec3] =
      .ok [Combo.mk (.str "A") ["script1", "script2"]] := rfl

/-- C4: for every combination candidate and every behaviour of the
generation service that raises on every prompt, `generate_unified_sql`
propagates nothing and returns the deterministic placeholder naming the
candidate's table. -/
theorem generate_unified_sql_fallback (env : LLMEnv) (allScripts : List ScriptData)
    (combination : Combo)
    (h : ∀ p, ∃ e, env.generate p = .error e) :
    generate_unified_sql env allScripts combination =
      "-- Erro ao gerar SQL para " ++ pyStr combination.table := by
  unfold generate_unified_sql
  obtain ⟨e, he⟩ := h (sqlPrompt env combination
    (allScripts.filter (fun s => combination.scripts.contains s.name)))
  rw [he]

/-- C4 witness: a simulated call failure on the candidate for table
`orders` yields exactly the placeholder string. -/
theorem generate_unified_sql_fallback_witness :
    generate_unified_sql envFailing [] (Combo.mk (.str "orders") ["a.py", "b.py"]) =
      "-- Erro ao gerar SQL para orders" :=
  (generate_unified_sql_fallback envFailing []
    (Combo.mk (.str "orders") ["a.py", "b.py"])
    (fun _ => ⟨"network unreachable", rfl⟩)).trans rfl

/-- C5: `extract_connections` is pure and total (a total Lean function): for
every text input its result carries exactly the three dialect keys
`postgres`, `mysql`, `mongodb` in this order, each bound to the list of
substrings captured by that dialect's pattern in scan order; on the empty
string all three lists are empty. -/
theorem extract_connections_total :
    (∀ code : String,
      (extract_connections code).map Prod.fst = ["postgres", "mysql", "mongodb"]) ∧
    extract_connections "" = [("postgres", []), ("mysql", []), ("mongodb", [])] :=
  ⟨fun _ => rfl, rfl⟩

/-- C6 counterexample: with the generation service always returning the
empty-object response `\x7b\x7d`, both scripts' inferred outputs are empty,
so the report over `a.py` and `b.py` has `scripts = 2` but NO combination at
all — contradicting the claimed single `customers` combination. -/
theorem run_analysis_empty_object_stub :
    run_analysis envEmptyObj demoFiles =
      .ok { scripts := 2, combinations := [], unified_sql := [] } ∧
    ¬ ∃ r, run_analysis envEmptyObj demoFiles = .ok r ∧
        r.combinations = [Combo.mk (.str "customers") ["a.py", "b.py"]] := by
  refine ⟨rfl, ?_⟩
  rintro ⟨r, h1, h2⟩
  rw [show run_analysis envEmptyObj demoFiles =
      .ok { scripts := 2, combinations := [], unified_sql := [] } from rfl] at h1
  injection h1 with hr
  rw [← hr] at h2
  exact absurd h2 (by decide)

/-- C6 (amended): in the end-to-end run over `a.py` and `b.py`, with the
service always returning one fixed JSON-object response that declares an
output to `customers` (an empty-object response yields no outputs, hence no
combination), the report has `scripts = 2`, exactly one combination
`(customers, [a.py, b.py])`, and `unified_sql` maps `customers` to the raw
response text, since the response carries no fenced `sql` block. -/
theorem run_analysis_customers_stub :
    run_analysis envCustomers demoFiles =
      .ok { scripts := 2,
            combinations := [Combo.mk (.str "customers") ["a.py", "b.py"]],
            unified_sql := [(.str "customers", customersText)] } := rfl

/-- C7 counterexample: a single record declaring destination `A` in two of
its output entries produces, by itself, a candidate whose member list is
`[script1, script1]` — a duplicated name, and only one distinct script. -/
theorem find_combinations_duplicate_members :
    find_combinations [rec7] = .ok [Combo.mk (.str "A") ["script1", "script1"]] ∧
    ¬ (["script1", "script1"] : List String).Nodup :=
  ⟨rfl, by decide⟩

/-- C7 (amended): every candidate pairs a table key with the list of script
display names contributed by the declaring output entries, in first-seen
order and with one entry per declaring output — so the list can repeat a
name; what does hold for every input record list is that every emitted
candidate has a member list of length at least two (not necessarily two
distinct names). -/
theorem find_combinations_min_two (rs : List ScriptData) (cands : List Combo)
    (h : find_combinations rs = .ok cands) :
    ∀ c ∈ cands, 2 ≤ c.scripts.length := by
  intro c hc
  unfold find_combinations at h
  cases hb : buildGroups [] rs with
  | error m =>
    rw [hb] at h
    exact Except.noConfusion h
  | ok gs =>
    rw [hb] at h
    injection h with h2
    subst h2
    obtain ⟨g, _, hf⟩ := List.mem_filterMap.mp hc
    by_cases hlen : 1 < g.2.length
    · rw [if_pos hlen] at hf
      injection hf with hf2
      subst hf2
      exact hlen
    · rw [if_neg hlen] at hf
      exact Option.noConfusion hf

/-- C7 witness: instantiated on two records both declaring table `A`. -/
theorem find_combinations_min_two_witness :
    2 ≤ (Combo.mk (PyKey.str "A") ["script1", "script2"]).scripts.length :=
  find_combinations_min_two [rec1, rec2]
    [Combo.mk (.str "A") ["script1", "script2"]] rfl
    (Combo.mk (.str "A") ["script1", "script2"]) (by simp)

/-- C8: `find_combinations` reads only the record collection handed to it
(the source method reads `self.scripts` and local state and mutates
neither), so it is a pure, deterministic function of its input: two runs on
the same unchanged record list return identical candidate lists — same
candidates, same order, same membership. -/
theorem find_combinations_deterministic (rs : List ScriptData) :
    find_combinations rs = find_combinations rs := rfl

/-- Record equality on every field except `combinable_with`. -/
def AgreeExceptCW (a b : ScriptData) : Prop :=
  a.name = b.name ∧ a.path = b.path ∧ a.code = b.code ∧
  a.connections = b.connections ∧ a.inputs = b.inputs ∧ a.outputs = b.outputs

theorem addRecord_congr (g : Groups) {a b : ScriptData} (h : AgreeExceptCW a b) :
    addRecord g a = addRecord g b := by
  unfold addRecord
  rw [h.1, h.2.2.2.2.2]

theorem buildGroups_congr {rs1 rs2 : List ScriptData}
    (h : List.Forall₂ AgreeExceptCW rs1 rs2) :
    ∀ g, buildGroups g rs1 = buildGroups g rs2 := by
  induction h with
  | nil => intro g; rfl
  | @cons a b l1 l2 hab htl ih =>
    intro g
    unfold buildGroups
    rw [addRecord_congr g hab]
    cases hr : addRecord g b with
    | error m => rfl
    | ok g2 => exact ih g2

/-- C9: the grouping reads only the records' names and declared output
destinations: two record lists that agree on every field except
`combinable_with` produce the same candidate list. -/
theorem find_combinations_ignores_combinable (rs1 rs2 : List ScriptData)
    (h : List.Forall₂ AgreeExceptCW rs1 rs2) :
    find_combinations rs1 = find_combinations rs2 := by
  unfold find_combinations
  rw [buildGroups_congr h []]

/-- C9 witness: changing one record's `combinable_with` leaves the
candidate list unchanged. -/
theorem find_combinations_ignores_combinable_witness :
    find_combinations [rec1] = find_combinations [rec1cw] :=
  find_combinations_ignores_combinable [rec1] [rec1cw]
    (List.Forall₂.cons ⟨rfl, rfl, rfl, rfl, rfl, rfl⟩ List.Forall₂.nil)

/-- Whether a JSON value is the empty string. -/
def isEmptyStrJ : JValue → Bool
  | .str s => s.isEmpty
  | _ => false

/-- An output entry is kept by the scrub iff it is not an object whose
`destination` key is missing or bound to the empty string — exactly the
entries C10 says contribute nothing. -/
def keepEntry : JValue → Bool
  | .obj kvs =>
    match lookupJ "destination" kvs with
    | none => false
    | some t => !(isEmptyStrJ t)
  | _ => true

/-- Removal of the destination-less and empty-destination entries of an
output list (non-list outputs are left alone). -/
def scrubOutputs : JValue → JValue
  | .arr es => .arr (es.filter keepEntry)
  | v => v

/-- A record with its output list scrubbed. -/
def scrubRecord (r : ScriptData) : ScriptData :=
  { r with outputs := scrubOutputs r.outputs }

theorem outputsStep_skip (nm : String) (g : Groups) (e : JValue)
    (he : keepEntry e = false) : outputsStep nm g e = .ok g := by
  cases e with
  | null => exact Bool.noConfusion he
  | bool b => exact Bool.noConfusion he
  | num n => exact Bool.noConfusion he
  | str s => exact Bool.noConfusion he
  | arr xs => exact Bool.noConfusion he
  | obj kvs =>
    have he2 : (match lookupJ "destination" kvs with
        | none => false
        | some t => !(isEmptyStrJ t)) = false := he
    cases hl : lookupJ "destination" kvs with
    | none =>
      simp only [outputsStep, jgetD, hl]
      rfl
    | some t =>
      rw [hl] at he2
      cases t with
      | str s =>
        have hs : s.isEmpty = true := by simpa [isEmptyStrJ] using he2
        simp [outputsStep, jgetD, hl, pyTruthy, hs]
      | null => exact Bool.noConfusion he2
      | bool b => exact Bool.noConfusion he2
      | num n => exact Bool.noConfusion he2
      | arr xs => exact Bool.noConfusion he2
      | obj kvs2 => exact Bool.noConfusion he2

theorem addOutputs_scrub (nm : String) (es : List JValue) :
    ∀ g, addOutputs nm g (es.filter keepEntry) = addOutputs nm g es := by
  induction es with
  | nil => intro g; rfl
  | cons e es ih =>
    intro g
    cases hk : keepEntry e with
    | false =>
      have h1 : (e :: es).filter keepEntry = es.filter keepEntry := by
        simp [List.filter_cons, hk]
      have h2 : addOutputs nm g (e :: es) = addOutputs nm g es := by
        show (match outputsStep nm g e with
          | Except.error m => Except.error m
          | Except.ok g2 => addOutputs nm g2 es) = addOutputs nm g es
        rw [outputsStep_skip nm g e hk]
      rw [h1, h2]
      exact ih g
    | true =>
      have h1 : (e :: es).filter keepEntry = e :: es.filter keepEntry := by
        simp [List.filter_cons, hk]
      rw [h1]
      unfold addOutputs
      cases hs : outputsStep nm g e with
      | error m => rfl
      | ok g2 => exact ih g2

theorem addRecord_scrub (g : Groups) (r : ScriptData) :
    addRecord g (scrubRecord r) = addRecord g r := by
  cases r with
  | mk nm pa co conns i o cw =>
    cases o with
    | null => rfl
    | bool b => rfl
    | num n => rfl
    | str s => rfl
    | obj kvs => rfl
    | arr es => exact addOutputs_scrub nm es g

theorem buildGroups_scrub (rs : List ScriptData) :
    ∀ g, buildGroups g (rs.map scrubRecord) = buildGroups g rs := by
  induction rs with
  | nil => intro g; rfl
  | cons r rs ih =>
    intro g
    show buildGroups g (scrubRecord r :: rs.map scrubRecord) = _
    unfold buildGroups
    rw [addRecord_scrub g r]
    cases hr : addRecord g r with
    | error m => rfl
    | ok g2 => exact ih g2

/-- C10: output entries that lack a `destination` key or bind it to the
empty string contribute their script to no group: deleting all such entries
from every record's output list leaves the result of `find_combinations`
unchanged, so such an entry can never appear in, or create, a candidate. -/
theorem find_combinations_scrub_invariant (rs : List ScriptData) :
    find_combinations (rs.map scrubRecord) = find_combinations rs := by
  unfold find_combinations
  rw [buildGroups_scrub rs []]

end SubirGh
